import Mathlib

/-!
Verification of the YouTube-Transcript-Generator repository: a shallow
embedding of the two scripts (`1-youtube_video_info_extractor.py`, the
metadata Collector, and `2-openai_transcript_generator.py`, the batch
Transcriber) together with theorems settling the behavioural claims.

Python strings are modelled as lists of characters (`Str`); the Python
string operations the scripts use (`in`, `split`, `strip`, `replace`,
`endswith`, f-string number formatting, `int`) are given executable
translations below.
-/

/-- Python strings are modelled as lists of characters. -/
abbrev Str := List Char

/-- Python `pat in s`: substring containment. -/
def strContains (s pat : Str) : Bool :=
  match s with
  | [] => pat.isEmpty
  | c :: rest => pat.isPrefixOf (c :: rest) || strContains rest pat

/-- Whitespace characters removed by Python's `str.strip()`. -/
def isPySpace (c : Char) : Bool :=
  c = ' ' || c = '\t' || c = '\n' || c = '\r' || c = '\x0b' || c = '\x0c'

/-- Python `s.strip()`: drop leading and trailing whitespace. -/
def pyStrip (s : Str) : Str :=
  ((s.dropWhile isPySpace).reverse.dropWhile isPySpace).reverse

/-- Python `s.split(sep)[0]`: the part of `s` before the first occurrence of
the separator (all of `s` when the separator does not occur). -/
def beforeFirst (sep : List Char) : Str → Str
  | [] => []
  | c :: rest =>
    if sep.isPrefixOf (c :: rest) then [] else c :: beforeFirst sep rest

/-- The suffix of `s` after the first occurrence of the character `ch`
(`none` when `ch` does not occur).  `s.split(ch)[1]` is
`(afterFirst ch s).map (beforeFirst [ch])`, raising `IndexError` exactly
when this is `none`. -/
def afterFirst (ch : Char) : Str → Option Str
  | [] => none
  | c :: rest => if c = ch then some rest else afterFirst ch rest

/-- Scanning worker for `afterLast`: `acc` holds (reversed) the characters
seen since the last separator occurrence. -/
def afterLastAux (sep : List Char) (acc s : Str) : Str :=
  match s with
  | [] => acc.reverse
  | c :: rest =>
    if sep.isPrefixOf (c :: rest) then
      afterLastAux sep [] (rest.drop (sep.length - 1))
    else
      afterLastAux sep (c :: acc) rest
termination_by s.length
decreasing_by
  all_goals simp only [List.length_drop, List.length_cons]
  all_goals omega

/-- Python `s.split(sep)[-1]` for a non-empty separator: the suffix of `s`
after the last (left-to-right, non-overlapping) occurrence of `sep`, or all
of `s` when `sep` does not occur. -/
def afterLast (sep s : Str) : Str := afterLastAux sep [] s

/-- Python `s.replace(pat, rep)`: replace every (left-to-right,
non-overlapping) occurrence of the non-empty pattern. -/
def pyReplace (pat rep : Str) (s : Str) : Str :=
  match s with
  | [] => []
  | c :: rest =>
    if pat ≠ [] ∧ pat.isPrefixOf (c :: rest) then
      rep ++ pyReplace pat rep (rest.drop (pat.length - 1))
    else
      c :: pyReplace pat rep rest
termination_by s.length
decreasing_by
  all_goals simp only [List.length_drop, List.length_cons]
  all_goals omega

/-- The decimal digit character for `d < 10`. -/
def digitChar (d : Nat) : Char := Char.ofNat (48 + d)

/-- Fuel-driven worker for `natDigits` (structural recursion keeps it
kernel-computable); any fuel above `n` yields the digits of `n`. -/
def natDigitsAux : Nat → Nat → Str
  | 0, _ => []
  | fuel + 1, n =>
    if n < 10 then [digitChar n]
    else natDigitsAux fuel (n / 10) ++ [digitChar (n % 10)]

/-- Python `str(n)` for a natural number: its decimal digits. -/
def natDigits (n : Nat) : Str := natDigitsAux (n + 1) n

theorem natDigitsAux_fuel_irrel (f1 : Nat) :
    ∀ f2 n, n < f1 → n < f2 → natDigitsAux f1 n = natDigitsAux f2 n := by
  induction f1 with
  | zero => intro f2 n h1 _; omega
  | succ f1 ih =>
    intro f2 n h1 h2
    cases f2 with
    | zero => omega
    | succ f2 =>
      rw [natDigitsAux, natDigitsAux]
      by_cases h : n < 10
      · rw [if_pos h, if_pos h]
      · rw [if_neg h, if_neg h]
        have hd : n / 10 < n := Nat.div_lt_self (by omega) (by omega)
        rw [ih f2 (n / 10) (by omega) (by omega)]

/-- The recursive unfolding `natDigits` satisfies. -/
theorem natDigits_eq (n : Nat) :
    natDigits n = if n < 10 then [digitChar n]
      else natDigits (n / 10) ++ [digitChar (n % 10)] := by
  rw [natDigits, natDigitsAux]
  by_cases h : n < 10
  · rw [if_pos h, if_pos h]
  · rw [if_neg h, if_neg h]
    have hd : n / 10 < n := Nat.div_lt_self (by omega) (by omega)
    rw [natDigits, natDigitsAux_fuel_irrel n (n / 10 + 1) (n / 10) (by omega) (by omega)]

/-- Numeric value of a digit string (the core of Python `int`). -/
def digitsToNat (s : Str) : Nat :=
  s.foldl (fun a c => a * 10 + (c.toNat - 48)) 0

/-- Python `int(s)` for the non-negative decimal forms the scripts meet:
`some` of the value when the stripped string is non-empty and all digits,
`none` when `int` would raise `ValueError`. -/
def pyInt? (s : Str) : Option Nat :=
  let t := pyStrip s
  if !t.isEmpty && t.all (fun c => c.isDigit) then some (digitsToNat t)
  else none

/-- Python `f"{n:02}"`: decimal, left-padded with `0` to width two. -/
def pad2 (n : Nat) : Str := if n < 10 then '0' :: natDigits n else natDigits n

/-!
## Metadata Collector (`1-youtube_video_info_extractor.py`)
-/

/-- Source `convert_short_youtube_url` (lines 9-18): expand a `youtu.be`
short link to the long `watch` form, returning other URLs unchanged. -/
def convert_short_youtube_url (short_url : Str) : Str :=
  if strContains short_url ("youtu.be".data) then
    let video_id := afterLast ("youtu.be/".data) short_url
    let video_id := beforeFirst ['?'] video_id
    "https://www.youtube.com/watch?v=".data ++ video_id
  else short_url

/-- Source `clean_url` (lines 20-24): expand short links, then drop
everything from the first `&` on and strip whitespace. -/
def clean_url (url : Str) : Str :=
  let url := convert_short_youtube_url url
  pyStrip (beforeFirst ['&'] url)

/-- A parsed `datePublished` timestamp.  The source runs
`datetime.strptime(content, "%Y-%m-%dT%H:%M:%S%z")`; the page model carries
the parsed value directly, so only pages whose date content is well-formed
(the case every claim concerns) are representable. -/
structure PyDate where
  year : Nat
  month : Nat
  day : Nat
deriving DecidableEq, Repr

/-- The metadata meta-tags of a fetched video page (the HTML soup as the
four `soup.find("meta", itemprop=...)` lookups see it): `none` models an
absent tag, `some` the tag's `content` attribute. -/
structure Soup where
  identifier : Option Str
  name : Option Str
  datePublished : Option PyDate
  duration : Option Str
deriving DecidableEq, Repr

/-- Source `get_video_ID` (lines 39-42). -/
def get_video_ID (soup : Soup) : Option Str := soup.identifier

/-- Source `get_title` (lines 34-37). -/
def get_title (soup : Soup) : Option Str := soup.name

/-- Source `get_date_published` (lines 26-32): reformat the parsed date with
`strftime("%d-%m-%Y")` (zero-padded day and month). -/
def get_date_published (soup : Soup) : Option Str :=
  soup.datePublished.map (fun d =>
    pad2 d.day ++ '-' :: pad2 d.month ++ '-' :: natDigits d.year)

/-- How `get_duration` can abort: `valueErr` models a `ValueError` from
`int(...)` (re-raised as-is by `get_video_info`), `indexErr` an
`IndexError` from `split("M")[1]` (re-raised wrapped in a generic
`Exception`). -/
inductive DurErr
  | valueErr
  | indexErr
deriving DecidableEq, Repr

/-- Source `get_duration` (lines 44-55): decode the ISO-8601-style content
`PT<minutes>M<seconds>S`, fold the minutes into hours with `divmod`, and
return the display string together with the total seconds. -/
def get_duration (durMeta : Option Str) : Except DurErr (Option (Str × Nat)) :=
  match durMeta with
  | none => .ok none
  | some ds =>
    match pyInt? ((beforeFirst ['M'] ds).drop 2) with
    | none => .error .valueErr
    | some minutes0 =>
      match afterFirst 'M' ds with
      | none => .error .indexErr
      | some tailM =>
        match pyInt? (beforeFirst ['S'] (beforeFirst ['M'] tailM)) with
        | none => .error .valueErr
        | some seconds =>
          let hours := minutes0 / 60
          let minutes := minutes0 % 60
          let dur : Str :=
            if hours > 0 then
              natDigits hours ++ ':' :: pad2 minutes ++ ':' :: pad2 seconds
            else
              natDigits minutes ++ ':' :: pad2 seconds
          .ok (some (dur, hours * 3600 + minutes * 60 + seconds))

/-- The fields `get_video_info` extracts before the loop adds `URL` and
`Number`. -/
structure PreRecord where
  videoID : Str
  title : Str
  datePub : Str
  duration : Str
  durationSec : Nat
deriving DecidableEq, Repr

/-- Outcome of fetching a video page: the parsed soup, or a
`requests.RequestException` (including `raise_for_status`). -/
inductive FetchResult
  | ok (soup : Soup)
  | err
deriving DecidableEq, Repr

/-- Outcome of source `get_video_info` (lines 57-94): a complete record, a
silent drop (`return None`), a propagating `ValueError`, or a propagating
generic `Exception`. -/
inductive GVIResult
  | record (r : PreRecord)
  | dropped
  | valueError
  | exn
deriving DecidableEq, Repr

/-- Source `get_video_info` (lines 57-94): reject URLs without
`youtube.com/watch` with a `ValueError`; otherwise fetch and parse the four
fields and emit a record only when all are present and truthy. -/
def get_video_info (url : Str) (page : FetchResult) : GVIResult :=
  if !strContains url ("youtube.com/watch".data) then .valueError
  else
    match page with
    | .err => .exn
    | .ok soup =>
      match get_duration soup.duration with
      | .error .valueErr => .valueError
      | .error .indexErr => .exn
      | .ok dur =>
        match get_video_ID soup, get_title soup, get_date_published soup, dur with
        | some i, some t, some d, some ds =>
          if i.isEmpty || t.isEmpty || d.isEmpty then .dropped
          else .record ⟨i, t, d, ds.1, ds.2⟩
        | _, _, _, _ => .dropped

/-- Source `is_valid_youtube_url` (lines 96-100). -/
def is_valid_youtube_url (url : Str) : Bool :=
  strContains url ("youtube.com/watch".data) || strContains url ("youtu.be".data)

/-- Source `read_urls_from_csv` (lines 102-115): keep the first field of
each non-empty row that passes `is_valid_youtube_url`. -/
def read_urls_from_csv (rows : List (List Str)) : List Str :=
  rows.filterMap (fun row =>
    match row with
    | [] => none
    | u :: _ => if is_valid_youtube_url u then some u else none)

/-- A finished row of the output table (`Number` and `URL` added by the
loop in `scrape_and_write_video_info`). -/
structure VideoRecord where
  number : Nat
  url : Str
  fields : PreRecord
deriving DecidableEq, Repr

/-- The loop state of `scrape_and_write_video_info`: the `enumerate`
counter, the accumulated `video_info_list`, and the progress notices
printed so far (each carrying the number it reported). -/
structure ScrapeState where
  number : Nat
  recs : List VideoRecord
  notices : List Nat
deriving DecidableEq, Repr

/-- An exception propagating out of the scrape loop (which has no handler):
the `ValueError` or the generic `Exception` raised by `get_video_info`. -/
inductive ScrapeErr
  | valueError
  | exn
deriving DecidableEq, Repr

/-- The `for number, url in enumerate(urls, start=1)` loop of source
`scrape_and_write_video_info` (lines 141-156): scrape each URL, append
complete records (with cleaned URL and sequence number), print a progress
notice when `number % 10 == 0`, and let exceptions propagate. -/
def scrape_go (fetch : Str → FetchResult) : ScrapeState → List Str → Except ScrapeErr ScrapeState
  | s, [] => .ok s
  | s, url :: rest =>
    match get_video_info url (fetch url) with
    | .valueError => .error .valueError
    | .exn => .error .exn
    | .dropped => scrape_go fetch ⟨s.number + 1, s.recs, s.notices⟩ rest
    | .record r =>
      let notices' := if s.number % 10 == 0 then s.notices ++ [s.number] else s.notices
      scrape_go fetch ⟨s.number + 1, s.recs ++ [⟨s.number, clean_url url, r⟩], notices'⟩ rest

/-- Source `scrape_and_write_video_info` (lines 131-159): read the URLs,
run the scrape loop from `number = 1`, and append the collected records to
the output table.  `some` carries the records written; `none` means an
uncaught exception aborted the run before anything was written. -/
def scrape_and_write_video_info (fetch : Str → FetchResult) (rows : List (List Str)) :
    Option (List VideoRecord) :=
  match scrape_go fetch ⟨1, [], []⟩ (read_urls_from_csv rows) with
  | .ok s => some s.recs
  | .error _ => none

/-!
## Batch Transcriber (`2-openai_transcript_generator.py`)

Files are modelled by their names (a list of names is the working
directory's `os.listdir`); the external downloader and the transcription
model are opaque collaborators supplied through a `World`.  The
`writedescription` option is `False` in the configuration, so no
description file is modelled.
-/

/-- Python `s.endswith(".mp3")`. -/
def endsWithMp3 (f : Str) : Bool := (".mp3".data).isSuffixOf f

/-- Outcome of `yt_dlp`'s `download` for one video: success (with the
video's title, which names the artifact), an `ExtractorError`
(age-restriction), or a `DownloadError`. -/
inductive DlResult
  | success (title : Str)
  | extractorError
  | downloadError
deriving DecidableEq, Repr

/-- The opaque external collaborators of the Transcriber: the media
downloader and the transcription model (mapping an audio file name to the
raw transcript text). -/
structure World where
  download : Str → DlResult
  transcribe : Str → Str

/-- What processing one identifier did, as observable per item: skipped by
the idempotency check, failed to download (logged, batch continues), or
downloaded-and-transcribed producing the named audio and transcript
files. -/
inductive ItemEvent
  | skipped
  | dlFailed
  | transcribed (mp3 txt : Str)
deriving DecidableEq, Repr

/-- Source `get_OpenAI_transcript` (lines 65-123): skip when any file name
in the working directory contains the identifier; otherwise download the
audio (handling the two failure kinds), transcribe it, and write the
transcript file.  Returns the updated directory listing and the item's
event; the transcript text (`result["text"]` with newlines collapsed and
ends stripped) determines only file contents, which the claims never
inspect, so only names are tracked. -/
def get_OpenAI_transcript (w : World) (video_id : Str) (fs : List Str) :
    List Str × ItemEvent :=
  if fs.any (fun file_name => strContains file_name video_id) then
    (fs, .skipped)
  else
    match w.download video_id with
    | .extractorError => (fs, .dlFailed)
    | .downloadError => (fs, .dlFailed)
    | .success title =>
      let file_path := title ++ ' ' :: video_id ++ ".mp3".data
      let name := pyReplace (".mp3".data) (".txt".data) file_path
      (name :: file_path :: fs, .transcribed file_path name)

/-- The "Video ID" column of the `pandas` DataFrame read from the
interchange table: `none` models a `NaN` cell (a row whose identifier is
missing).  `hasVideoIDCol = false` models a table without the column at
all (in which case `col` is unused). -/
structure DataFrame where
  hasVideoIDCol : Bool
  col : List (Option Str)
deriving DecidableEq, Repr

/-- Position of the first row whose identifier equals `x`
(`df[df["Video ID"] == start_video_id].index[0]`; a `NaN` cell never
equals a string). -/
def firstMatchIdx (col : List (Option Str)) (x : Str) : Option Nat :=
  match col with
  | [] => none
  | v :: rest =>
    if v = some x then some 0 else (firstMatchIdx rest x).map (· + 1)

/-- The row scan of `videos_to_transcribe` (lines 146-152): append the
identifier of every row at or past `start_index`, warning (by row index)
on rows with a missing identifier. -/
def collectIdsFrom (idx start_index : Nat) : List (Option Str) → List Str × List Nat
  | [] => ([], [])
  | v :: rest =>
    let t := collectIdsFrom (idx + 1) start_index rest
    if start_index ≤ idx then
      match v with
      | some s => (s :: t.1, t.2)
      | none => (t.1, idx :: t.2)
    else t

/-- Outcome of source `videos_to_transcribe` (lines 125-157): the resolved
identifier list with its missing-row warnings, the printed
missing-column error (which still returns the empty list), or an uncaught
`IndexError` from `index[0]` on an empty match. -/
inductive VtOutcome
  | result (ids : List Str) (warnings : List Nat)
  | colMissing
  | indexError
deriving DecidableEq, Repr

/-- Source `videos_to_transcribe` (lines 125-157). -/
def videos_to_transcribe (df : DataFrame) (start_video_id : Str) : VtOutcome :=
  if df.hasVideoIDCol then
    if !start_video_id.isEmpty && !df.col.isEmpty then
      match firstMatchIdx df.col start_video_id with
      | none => .indexError
      | some start_index =>
        let t := collectIdsFrom 0 start_index df.col
        .result t.1 t.2
    else
      let t := collectIdsFrom 0 0 df.col
      .result t.1 t.2
  else .colMissing

/-- Source `delete_mp3_files` (lines 159-172): remove every file whose
name ends in `.mp3`.  Returns the remaining directory listing and the
removed files. -/
def delete_mp3_files (fs : List Str) : List Str × List Str :=
  (fs.filter (fun f => !endsWithMp3 f), fs.filter endsWithMp3)

/-- The `for video_id in ids_to_transcribe` loop of `__main__`
(lines 185-187): process each identifier in order, threading the working
directory and recording each item's event. -/
def processItems (w : World) (fs : List Str) : List Str → List Str × List (Str × ItemEvent)
  | [] => (fs, [])
  | id0 :: rest =>
    let p := get_OpenAI_transcript w id0 fs
    let t := processItems w p.1 rest
    (t.1, (id0, p.2) :: t.2)

/-- What a completed Transcriber run did: whether the missing-column error
was printed, the per-item events in order, the files the end-of-batch
cleanup removed, and the final directory listing. -/
structure RunTrace where
  colError : Bool
  events : List (Str × ItemEvent)
  removed : List Str
  finalFs : List Str
deriving DecidableEq, Repr

/-- Outcome of the whole `__main__` run: a completed trace, or a crash from
the uncaught `IndexError` in identifier resolution (nothing is processed
and no cleanup runs). -/
inductive RunOutcome
  | completed (t : RunTrace)
  | crashedIndexError
deriving DecidableEq, Repr

/-- Source `__main__` (lines 174-191): resolve the identifiers, process
each in order, then delete every `.mp3` file in the working directory. -/
def main_run (w : World) (df : DataFrame) (start_video_id : Str) (fs0 : List Str) :
    RunOutcome :=
  match videos_to_transcribe df start_video_id with
  | .indexError => .crashedIndexError
  | .colMissing =>
    let d := delete_mp3_files fs0
    .completed ⟨true, [], d.2, d.1⟩
  | .result ids _warnings =>
    let p := processItems w fs0 ids
    let d := delete_mp3_files p.1
    .completed ⟨false, p.2, d.2, d.1⟩

/-!
## Helper lemmas
-/

/-- Rows at or past `start` holding a missing (`NaN`) identifier, by
absolute row index; these are the rows the resolution warns about. -/
def missingRowIdxs (idx : Nat) : List (Option Str) → List Nat
  | [] => []
  | some _ :: rest => missingRowIdxs (idx + 1) rest
  | none :: rest => idx :: missingRowIdxs (idx + 1) rest

theorem firstMatchIdx_spec (col : List (Option Str)) (x : Str) (k : Nat)
    (hk : col.get? k = some (some x))
    (hfirst : ∀ j ∈ List.range k, col.get? j ≠ some (some x)) :
    firstMatchIdx col x = some k := by
  induction col generalizing k with
  | nil => simp at hk
  | cons v rest ih =>
    cases k with
    | zero =>
      simp at hk
      simp [firstMatchIdx, hk]
    | succ j =>
      have hv : v ≠ some x := by
        have := hfirst 0 (by simp)
        simpa using this
      have hrest : firstMatchIdx rest x = some j := by
        apply ih
        · simpa using hk
        · intro i hi
          have := hfirst (i + 1) (by simp at hi ⊢; omega)
          simpa using this
      simp [firstMatchIdx, hv, hrest]

theorem firstMatchIdx_none (col : List (Option Str)) (x : Str)
    (h : some x ∉ col) : firstMatchIdx col x = none := by
  induction col with
  | nil => rfl
  | cons v rest ih =>
    simp at h
    have hv : v ≠ some x := fun hvx => h.1 hvx.symm
    simp [firstMatchIdx, hv, ih h.2]

theorem collectIdsFrom_ge (col : List (Option Str)) (idx si : Nat) (h : si ≤ idx) :
    collectIdsFrom idx si col = (col.filterMap id, missingRowIdxs idx col) := by
  induction col generalizing idx with
  | nil => rfl
  | cons v rest ih =>
    cases v with
    | some s => simp [collectIdsFrom, missingRowIdxs, h, ih (idx + 1) (by omega)]
    | none => simp [collectIdsFrom, missingRowIdxs, h, ih (idx + 1) (by omega)]

theorem collectIdsFrom_drop (col : List (Option Str)) (idx si : Nat) (h : idx ≤ si) :
    collectIdsFrom idx si col =
      ((col.drop (si - idx)).filterMap id, missingRowIdxs si (col.drop (si - idx))) := by
  induction col generalizing idx with
  | nil => simp [collectIdsFrom, missingRowIdxs]
  | cons v rest ih =>
    rcases Nat.eq_or_lt_of_le h with heq | hlt
    · subst heq
      simp [collectIdsFrom_ge _ idx idx (Nat.le_refl idx)]
    · have hnot : ¬ si ≤ idx := by omega
      have hdrop : (v :: rest).drop (si - idx) = rest.drop (si - (idx + 1)) := by
        have h1 : si - idx = (si - (idx + 1)) + 1 := by omega
        rw [h1, List.drop_succ_cons]
      have : collectIdsFrom idx si (v :: rest) = collectIdsFrom (idx + 1) si rest := by
        cases v <;> simp [collectIdsFrom, hnot]
      rw [this, ih (idx + 1) (by omega), hdrop]

/-!
## Claims about the Batch Transcriber
-/

/-- C1 (resume correctness): for a table with a "Video ID" column whose
row `k` (0-based, the first occurrence) holds the `startIdentifier`,
`videos_to_transcribe` returns exactly the identifiers of rows `k..N-1` in
table order — none of the rows before `k` — and warns about (instead of
including) every row at or past `k` whose identifier is missing. -/
theorem videos_to_transcribe_resume (col : List (Option Str)) (x : Str) (k : Nat)
    (hx : x ≠ [])
    (hk : col.get? k = some (some x))
    (hfirst : ∀ j ∈ List.range k, col.get? j ≠ some (some x)) :
    videos_to_transcribe ⟨true, col⟩ x =
      VtOutcome.result ((col.drop k).filterMap id) (missingRowIdxs k (col.drop k)) := by
  have hklt : k < col.length := by
    by_contra hge
    rw [List.get?_eq_none.mpr (by omega)] at hk
    exact Option.noConfusion hk
  have hcol : col ≠ [] := by
    intro hnil
    rw [hnil] at hklt
    simp at hklt
  have hfm : firstMatchIdx col x = some k := firstMatchIdx_spec col x k hk hfirst
  have hxe : (List.isEmpty x) = false := by
    cases x with
    | nil => exact absurd rfl hx
    | cons c cs => rfl
  have hce : (List.isEmpty col) = false := by
    cases col with
    | nil => exact absurd rfl hcol
    | cons c cs => rfl
  rw [videos_to_transcribe]
  simp only [hxe, hce, Bool.not_false, Bool.and_self, if_true, hfm]
  rw [collectIdsFrom_drop col 0 k (Nat.zero_le k)]
  simp

/-- Witness for C1 at a concrete four-row table resuming from row 1. -/
theorem videos_to_transcribe_resume_witness :
    ("b".data ≠ ([] : Str)) ∧
    ([some "a".data, some "b".data, none, some "c".data].get? 1 = some (some "b".data)) ∧
    videos_to_transcribe ⟨true, [some "a".data, some "b".data, none, some "c".data]⟩ ("b".data) =
      VtOutcome.result ["b".data, "c".data] [2] :=
  ⟨by decide, by decide,
    videos_to_transcribe_resume [some "a".data, some "b".data, none, some "c".data]
      ("b".data) 1 (by decide) (by decide) (by decide)⟩

/-- C2 (idempotency by filename): when any file name in the working
directory contains the identifier, `get_OpenAI_transcript` skips the item
entirely — no download, no transcription, no write — leaving every
existing file (in particular the existing output for that identifier)
unchanged, whatever the external world would have returned. -/
theorem transcriber_skip_idempotent (w : World) (video_id : Str) (fs : List Str)
    (h : fs.any (fun file_name => strContains file_name video_id) = true) :
    get_OpenAI_transcript w video_id fs = (fs, ItemEvent.skipped) := by
  rw [get_OpenAI_transcript, h]
  rfl

/-- Witness for C2: a directory already holding a transcript whose name
contains the identifier. -/
theorem transcriber_skip_idempotent_witness :
    (["Talk v1.txt".data, "other.mp3".data].any
      (fun file_name => strContains file_name ("v1".data)) = true) ∧
    get_OpenAI_transcript ⟨fun _ => DlResult.success ("Talk".data), fun _ => []⟩ ("v1".data)
        ["Talk v1.txt".data, "other.mp3".data] =
      (["Talk v1.txt".data, "other.mp3".data], ItemEvent.skipped) :=
  ⟨by decide,
    transcriber_skip_idempotent ⟨fun _ => DlResult.success ("Talk".data), fun _ => []⟩
      ("v1".data) ["Talk v1.txt".data, "other.mp3".data] (by decide)⟩

/-- C10 (unmatched start identifier): a non-empty `start_video_id` absent
from the non-empty "Video ID" column makes `videos_to_transcribe` raise an
uncaught `IndexError` instead of returning a list, so the run crashes
before any item is processed and before any cleanup. -/
theorem unmatched_start_crashes (w : World) (col : List (Option Str)) (x : Str)
    (fs0 : List Str)
    (hx : x ≠ []) (hcol : col ≠ []) (hmem : some x ∉ col) :
    videos_to_transcribe ⟨true, col⟩ x = VtOutcome.indexError ∧
    main_run w ⟨true, col⟩ x fs0 = RunOutcome.crashedIndexError := by
  have hxe : (List.isEmpty x) = false := by
    cases x with
    | nil => exact absurd rfl hx
    | cons c cs => rfl
  have hce : (List.isEmpty col) = false := by
    cases col with
    | nil => exact absurd rfl hcol
    | cons c cs => rfl
  have h1 : videos_to_transcribe ⟨true, col⟩ x = VtOutcome.indexError := by
    rw [videos_to_transcribe]
    simp only [hxe, hce, Bool.not_false, Bool.and_self, if_true,
      firstMatchIdx_none col x hmem]
  refine ⟨h1, ?_⟩
  rw [main_run, h1]

/-- Witness for C10 at a one-row table and an alien start identifier. -/
theorem unmatched_start_crashes_witness :
    ("zz".data ≠ ([] : Str)) ∧ (some ("zz".data) ∉ [some "a".data]) ∧
    videos_to_transcribe ⟨true, [some "a".data]⟩ ("zz".data) = VtOutcome.indexError ∧
    main_run ⟨fun _ => DlResult.downloadError, fun _ => []⟩ ⟨true, [some "a".data]⟩
      ("zz".data) [] = RunOutcome.crashedIndexError :=
  ⟨by decide, by decide,
    unmatched_start_crashes ⟨fun _ => DlResult.downloadError, fun _ => []⟩
      [some "a".data] ("zz".data) [] (by decide) (by decide) (by decide)⟩

/-- C3 counterexample: on a table with no "Video ID" column the Transcriber
run does not fail as a whole and does continue past identifier resolution —
it completes normally and still performs the end-of-batch cleanup, here
deleting a pre-existing `.mp3` file. -/
theorem missing_column_cx :
    main_run ⟨fun _ => DlResult.downloadError, fun _ => []⟩ ⟨false, []⟩ []
        ["a.mp3".data, "b.txt".data] =
      RunOutcome.completed ⟨true, [], ["a.mp3".data], ["b.txt".data]⟩ := by
  decide

/-- C3 amended: a table with no "Video ID" column makes identifier
resolution report a configuration error and return the empty identifier
list, so no item is processed; the run does not fail as a whole — it
continues past identifier resolution, performs the end-of-batch cleanup,
and terminates normally. -/
theorem missing_column_amended (w : World) (df : DataFrame) (start : Str)
    (fs0 : List Str) (h : df.hasVideoIDCol = false) :
    videos_to_transcribe df start = VtOutcome.colMissing ∧
    main_run w df start fs0 =
      RunOutcome.completed
        ⟨true, [], fs0.filter endsWithMp3, fs0.filter (fun f => !endsWithMp3 f)⟩ := by
  have h1 : videos_to_transcribe df start = VtOutcome.colMissing := by
    rw [videos_to_transcribe, h]
    simp
  refine ⟨h1, ?_⟩
  rw [main_run, h1]
  rfl

/-- Witness for the amended C3 at a concrete column-less table. -/
theorem missing_column_amended_witness :
    ((⟨false, [some "a".data]⟩ : DataFrame).hasVideoIDCol = false) ∧
    videos_to_transcribe ⟨false, [some "a".data]⟩ [] = VtOutcome.colMissing ∧
    main_run ⟨fun _ => DlResult.downloadError, fun _ => []⟩ ⟨false, [some "a".data]⟩ []
        ["c.mp3".data] =
      RunOutcome.completed ⟨true, [], ["c.mp3".data], []⟩ :=
  ⟨rfl,
    missing_column_amended ⟨fun _ => DlResult.downloadError, fun _ => []⟩
      ⟨false, [some "a".data]⟩ [] ["c.mp3".data] rfl⟩

theorem get_OpenAI_transcript_mono (w : World) (video_id : Str) (fs : List Str)
    (f : Str) (hf : f ∈ fs) : f ∈ (get_OpenAI_transcript w video_id fs).1 := by
  rw [get_OpenAI_transcript]
  by_cases h : fs.any (fun file_name => strContains file_name video_id) = true
  · rw [h]
    exact hf
  · rw [Bool.not_eq_true] at h
    rw [h]
    cases w.download video_id with
    | success title => simp [hf]
    | extractorError => exact hf
    | downloadError => exact hf

theorem processItems_mono (w : World) (ids : List Str) (fs : List Str)
    (f : Str) (hf : f ∈ fs) : f ∈ (processItems w fs ids).1 := by
  induction ids generalizing fs with
  | nil => exact hf
  | cons id0 rest ih =>
    exact ih (get_OpenAI_transcript w id0 fs).1 (get_OpenAI_transcript_mono w id0 fs f hf)

theorem delete_mp3_files_spec (fs : List Str) :
    (delete_mp3_files fs).1.all (fun f => !endsWithMp3 f) = true ∧
    (∀ f ∈ fs, endsWithMp3 f = true → f ∈ (delete_mp3_files fs).2) ∧
    (∀ f ∈ (delete_mp3_files fs).2, endsWithMp3 f = true) ∧
    (∀ f ∈ fs, f ∈ (delete_mp3_files fs).1 ∨ f ∈ (delete_mp3_files fs).2) := by
  refine ⟨?_, ?_, ?_, ?_⟩
  · rw [List.all_eq_true]
    intro f hf
    exact (List.mem_filter.mp hf).2
  · intro f hf hmp3
    exact List.mem_filter.mpr ⟨hf, hmp3⟩
  · intro f hf
    exact (List.mem_filter.mp hf).2
  · intro f hf
    by_cases hmp3 : endsWithMp3 f = true
    · exact Or.inr (List.mem_filter.mpr ⟨hf, hmp3⟩)
    · rw [Bool.not_eq_true] at hmp3
      exact Or.inl (List.mem_filter.mpr ⟨hf, by rw [hmp3]; rfl⟩)

/-- C4 (end-of-batch cleanup): whenever identifier resolution does not
crash, the run completes with a trace in which the final directory holds
no `.mp3` file; every `.mp3` file — including every pre-existing one, no
matter which job (or no job of this run) produced it — is among the
removed files; only `.mp3` files are removed; and no file disappears
during the item phase (each pre-existing file survives into the final
listing or is removed by the single cleanup at the end). -/
theorem cleanup_end_of_batch (w : World) (df : DataFrame) (start : Str)
    (fs0 : List Str) (h : videos_to_transcribe df start ≠ VtOutcome.indexError) :
    ∃ t, main_run w df start fs0 = RunOutcome.completed t ∧
      t.finalFs.all (fun f => !endsWithMp3 f) = true ∧
      (∀ f ∈ fs0, endsWithMp3 f = true → f ∈ t.removed) ∧
      (∀ f ∈ t.removed, endsWithMp3 f = true) ∧
      (∀ f ∈ fs0, f ∈ t.finalFs ∨ f ∈ t.removed) := by
  cases hvt : videos_to_transcribe df start with
  | indexError => exact absurd hvt h
  | colMissing =>
    refine ⟨_, by rw [main_run, hvt], ?_, ?_, ?_, ?_⟩
    · exact (delete_mp3_files_spec fs0).1
    · exact (delete_mp3_files_spec fs0).2.1
    · exact (delete_mp3_files_spec fs0).2.2.1
    · exact (delete_mp3_files_spec fs0).2.2.2
  | result ids warnings =>
    have hmono : ∀ f ∈ fs0, f ∈ (processItems w fs0 ids).1 :=
      fun f hf => processItems_mono w ids fs0 f hf
    refine ⟨_, by rw [main_run, hvt], ?_, ?_, ?_, ?_⟩
    · exact (delete_mp3_files_spec (processItems w fs0 ids).1).1
    · exact fun f hf hmp3 =>
        (delete_mp3_files_spec (processItems w fs0 ids).1).2.1 f (hmono f hf) hmp3
    · exact (delete_mp3_files_spec (processItems w fs0 ids).1).2.2.1
    · exact fun f hf =>
        (delete_mp3_files_spec (processItems w fs0 ids).1).2.2.2 f (hmono f hf)

/-- Witness for C4: a run over one identifier whose download fails, with a
stale `.mp3` from an earlier run in the directory. -/
theorem cleanup_end_of_batch_witness :
    (videos_to_transcribe ⟨true, [some "v1".data]⟩ [] ≠ VtOutcome.indexError) ∧
    ∃ t, main_run ⟨fun _ => DlResult.downloadError, fun _ => []⟩ ⟨true, [some "v1".data]⟩ []
          ["old.mp3".data, "keep.txt".data] = RunOutcome.completed t ∧
      t.finalFs.all (fun f => !endsWithMp3 f) = true ∧
      (∀ f ∈ ["old.mp3".data, "keep.txt".data], endsWithMp3 f = true → f ∈ t.removed) ∧
      (∀ f ∈ t.removed, endsWithMp3 f = true) ∧
      (∀ f ∈ ["old.mp3".data, "keep.txt".data], f ∈ t.finalFs ∨ f ∈ t.removed) :=
  ⟨by decide,
    cleanup_end_of_batch ⟨fun _ => DlResult.downloadError, fun _ => []⟩
      ⟨true, [some "v1".data]⟩ [] ["old.mp3".data, "keep.txt".data] (by decide)⟩

/-!
## Digit-string lemmas (for the duration computation)
-/

theorem digitChar_isDigit (d : Nat) (h : d < 10) : (digitChar d).isDigit = true := by
  interval_cases d <;> decide

theorem digitChar_toNat (d : Nat) (h : d < 10) : (digitChar d).toNat = 48 + d := by
  interval_cases d <;> decide

theorem natDigits_all_digit (n : Nat) : ∀ c ∈ natDigits n, c.isDigit = true := by
  induction n using Nat.strong_induction_on with
  | _ n ih =>
    rw [natDigits_eq]
    by_cases h : n < 10
    · simp only [if_pos h, List.mem_singleton]
      intro c hc
      rw [hc]
      exact digitChar_isDigit n h
    · simp only [if_neg h]
      intro c hc
      rcases List.mem_append.mp hc with h1 | h2
      · exact ih (n / 10) (Nat.div_lt_self (by omega) (by omega)) c h1
      · rw [List.mem_singleton.mp h2]
        exact digitChar_isDigit (n % 10) (Nat.mod_lt n (by omega))

theorem natDigits_ne_nil (n : Nat) : natDigits n ≠ [] := by
  rw [natDigits_eq]
  by_cases h : n < 10
  · simp [if_pos h]
  · simp [if_neg h]

theorem digitsToNat_append_single (a : Str) (c : Char) :
    digitsToNat (a ++ [c]) = 10 * digitsToNat a + (c.toNat - 48) := by
  simp [digitsToNat, List.foldl_append]
  omega

theorem digitsToNat_natDigits (n : Nat) : digitsToNat (natDigits n) = n := by
  induction n using Nat.strong_induction_on with
  | _ n ih =>
    rw [natDigits_eq]
    by_cases h : n < 10
    · simp only [if_pos h]
      simp [digitsToNat, digitChar_toNat n h]
    · simp only [if_neg h]
      rw [digitsToNat_append_single, ih (n / 10) (Nat.div_lt_self (by omega) (by omega)),
        digitChar_toNat (n % 10) (Nat.mod_lt n (by omega))]
      omega

theorem isDigit_not_pySpace (c : Char) (h : c.isDigit = true) : isPySpace c = false := by
  by_contra hsp
  rw [Bool.not_eq_false] at hsp
  simp only [isPySpace, Bool.or_eq_true, decide_eq_true_eq] at hsp
  rcases hsp with ((((h1 | h1) | h1) | h1) | h1) | h1 <;> (rw [h1] at h; exact absurd h (by decide))

theorem dropWhile_eq_self_of (p : Char → Bool) (s : Str) (h : ∀ c ∈ s, p c = false) :
    s.dropWhile p = s := by
  cases s with
  | nil => rfl
  | cons c rest =>
    rw [List.dropWhile_cons, h c (List.mem_cons_self c rest)]
    simp

theorem pyStrip_eq_self (s : Str) (h : ∀ c ∈ s, isPySpace c = false) : pyStrip s = s := by
  rw [pyStrip, dropWhile_eq_self_of isPySpace s h,
    dropWhile_eq_self_of isPySpace s.reverse (fun c hc => h c (List.mem_reverse.mp hc)),
    List.reverse_reverse]

theorem pyInt?_natDigits (n : Nat) : pyInt? (natDigits n) = some n := by
  simp only [pyInt?]
  rw [pyStrip_eq_self (natDigits n)
    (fun c hc => isDigit_not_pySpace c (natDigits_all_digit n c hc))]
  have h1 : (natDigits n).isEmpty = false := by
    cases hh : natDigits n with
    | nil => exact absurd hh (natDigits_ne_nil n)
    | cons c rest => rfl
  have h2 : (natDigits n).all (fun c => c.isDigit) = true :=
    List.all_eq_true.mpr (natDigits_all_digit n)
  rw [h1, h2]
  simp [digitsToNat_natDigits]

theorem isDigit_ne_of_not_digit (c c' : Char) (h : c.isDigit = true)
    (h' : c'.isDigit = false) : c ≠ c' := by
  intro he
  rw [he, h'] at h
  exact Bool.noConfusion h

theorem isPrefixOf_single_cons (ch c : Char) (rest : Str) :
    List.isPrefixOf [ch] (c :: rest) = (ch == c) := by
  simp [List.isPrefixOf]

theorem beforeFirst_single_none (ch : Char) (s : Str) (h : ∀ c ∈ s, c ≠ ch) :
    beforeFirst [ch] s = s := by
  induction s with
  | nil => rfl
  | cons c rest ih =>
    rw [beforeFirst, isPrefixOf_single_cons]
    have hc : (ch == c) = false := by
      have := h c (List.mem_cons_self c rest)
      simp [beq_eq_false_iff_ne]
      exact fun he => this he.symm
    rw [hc]
    simp only [Bool.false_eq_true, if_false]
    rw [ih (fun c' hc' => h c' (List.mem_cons_of_mem c hc'))]

theorem beforeFirst_single_mid (ch : Char) (a b : Str) (h : ∀ c ∈ a, c ≠ ch) :
    beforeFirst [ch] (a ++ ch :: b) = a := by
  induction a with
  | nil =>
    rw [List.nil_append, beforeFirst, isPrefixOf_single_cons]
    simp
  | cons c rest ih =>
    rw [List.cons_append, beforeFirst, isPrefixOf_single_cons]
    have hc : (ch == c) = false := by
      have := h c (List.mem_cons_self c rest)
      simp [beq_eq_false_iff_ne]
      exact fun he => this he.symm
    rw [hc]
    simp only [Bool.false_eq_true, if_false]
    rw [ih (fun c' hc' => h c' (List.mem_cons_of_mem c hc'))]

theorem afterFirst_mid (ch : Char) (a b : Str) (h : ∀ c ∈ a, c ≠ ch) :
    afterFirst ch (a ++ ch :: b) = some b := by
  induction a with
  | nil =>
    rw [List.nil_append, afterFirst]
    simp
  | cons c rest ih =>
    rw [List.cons_append, afterFirst]
    have hc : ¬ (c = ch) := h c (List.mem_cons_self c rest)
    rw [if_neg hc]
    exact ih (fun c' hc' => h c' (List.mem_cons_of_mem c hc'))

/-- The duration meta content an item page carries for a structured
duration of `minutes` minutes and `seconds` seconds (the
`PT<minutes>M<seconds>S` form the site serves, minutes not yet folded
into hours). -/
def mkDurStr (minutes seconds : Nat) : Str :=
  'P' :: 'T' :: natDigits minutes ++ 'M' :: natDigits seconds ++ ['S']

/-- The display string the specification requires for `h` hours, `m`
minutes, `s` seconds: `H:MM:SS` when hours > 0, else `M:SS`. -/
def durationDisplay (h m s : Nat) : Str :=
  if h > 0 then natDigits h ++ ':' :: pad2 m ++ ':' :: pad2 s
  else natDigits m ++ ':' :: pad2 s

/-- C5 (duration computation): for every structured duration of `h` hours,
`m` minutes (`m < 60`), `s` seconds, `get_duration` produces the display
string `H:MM:SS` when hours > 0 and `M:SS` otherwise, together with the
total-seconds value `h*3600 + m*60 + s`; in particular 1 hour 2 minutes
3 seconds yields `"1:02:03"` with 3723 seconds, and 5 minutes 9 seconds
yields `"5:09"` with 309 seconds. -/
theorem duration_structured (h m s : Nat) (hm : m < 60) :
    get_duration (some (mkDurStr (60 * h + m) s)) =
      Except.ok (some (durationDisplay h m s, h * 3600 + m * 60 + s)) ∧
    get_duration (some ("PT62M3S".data)) = Except.ok (some ("1:02:03".data, 3723)) ∧
    get_duration (some ("PT5M9S".data)) = Except.ok (some ("5:09".data, 309)) := by
  refine ⟨?_, by rfl, by rfl⟩
  have hPT : ∀ c ∈ 'P' :: 'T' :: natDigits (60 * h + m), c ≠ 'M' := by
    intro c hc
    simp only [List.mem_cons] at hc
    rcases hc with rfl | rfl | hc
    · decide
    · decide
    · exact isDigit_ne_of_not_digit c 'M' (natDigits_all_digit _ c hc) (by decide)
  have hds : mkDurStr (60 * h + m) s =
      ('P' :: 'T' :: natDigits (60 * h + m)) ++ 'M' :: (natDigits s ++ ['S']) := by
    simp [mkDurStr]
  have h1 : beforeFirst ['M'] (mkDurStr (60 * h + m) s) =
      'P' :: 'T' :: natDigits (60 * h + m) := by
    rw [hds]
    exact beforeFirst_single_mid 'M' _ _ hPT
  have h2 : afterFirst 'M' (mkDurStr (60 * h + m) s) = some (natDigits s ++ ['S']) := by
    rw [hds]
    exact afterFirst_mid 'M' _ _ hPT
  have hSdig : ∀ c ∈ natDigits s ++ ['S'], c ≠ 'M' := by
    intro c hc
    rcases List.mem_append.mp hc with hc | hc
    · exact isDigit_ne_of_not_digit c 'M' (natDigits_all_digit _ c hc) (by decide)
    · rw [List.mem_singleton.mp hc]
      decide
  have h3 : beforeFirst ['M'] (natDigits s ++ ['S']) = natDigits s ++ ['S'] :=
    beforeFirst_single_none 'M' _ hSdig
  have hSd2 : ∀ c ∈ natDigits s, c ≠ 'S' := fun c hc =>
    isDigit_ne_of_not_digit c 'S' (natDigits_all_digit _ c hc) (by decide)
  have h4 : beforeFirst ['S'] (natDigits s ++ ['S']) = natDigits s :=
    beforeFirst_single_mid 'S' (natDigits s) [] hSd2
  have hdrop : ('P' :: 'T' :: natDigits (60 * h + m)).drop 2 = natDigits (60 * h + m) := rfl
  have hdiv : (60 * h + m) / 60 = h := by omega
  have hmod : (60 * h + m) % 60 = m := by omega
  simp only [get_duration, h1, hdrop, pyInt?_natDigits, h2, h3, h4, hdiv, hmod,
    durationDisplay]

/-- Witness for C5 at 1 hour 2 minutes 3 seconds. -/
theorem duration_structured_witness :
    (2 < 60) ∧
    get_duration (some (mkDurStr (60 * 1 + 2) 3)) =
      Except.ok (some (durationDisplay 1 2 3, 1 * 3600 + 2 * 60 + 3)) :=
  ⟨by decide, (duration_structured 1 2 3 (by decide)).1⟩

/-- C8 (incomplete metadata never yields a partial record): for a fetched
page whose duration content decodes without an exception, if any one of
the four required fields (identifier, title, publish date, duration) is
absent, `get_video_info` drops the item — it returns no record at all —
and the scrape loop moves on to the next URL with the record list and the
notices unchanged. -/
theorem missing_field_drops (url : Str) (soup : Soup) (dopt : Option (Str × Nat))
    (hurl : strContains url ("youtube.com/watch".data) = true)
    (hdur : get_duration soup.duration = Except.ok dopt)
    (hmiss : soup.identifier = none ∨ soup.name = none ∨
      soup.datePublished = none ∨ dopt = none) :
    get_video_info url (FetchResult.ok soup) = GVIResult.dropped ∧
    ∀ (fetch : Str → FetchResult) (n : Nat) (recs : List VideoRecord)
      (notices : List Nat) (rest : List Str),
      fetch url = FetchResult.ok soup →
      scrape_go fetch ⟨n, recs, notices⟩ (url :: rest) =
        scrape_go fetch ⟨n + 1, recs, notices⟩ rest := by
  have hd : get_video_info url (FetchResult.ok soup) = GVIResult.dropped := by
    rw [get_video_info, hurl]
    simp only [Bool.not_true, Bool.false_eq_true, if_false]
    rw [hdur]
    rcases hmiss with h1 | h1 | h1 | h1 <;>
      simp [get_video_ID, get_title, get_date_published, h1]
  refine ⟨hd, ?_⟩
  intro fetch n recs notices rest hfetch
  rw [scrape_go, hfetch, hd]

/-- Witness for C8: a page with identifier, date and duration but no
title. -/
theorem missing_field_drops_witness :
    (strContains ("https://www.youtube.com/watch?v=abc".data)
      ("youtube.com/watch".data) = true) ∧
    get_video_info ("https://www.youtube.com/watch?v=abc".data)
        (FetchResult.ok ⟨some "abc".data, none, some ⟨2024, 1, 2⟩, some "PT5M9S".data⟩) =
      GVIResult.dropped :=
  ⟨by decide,
    (missing_field_drops ("https://www.youtube.com/watch?v=abc".data)
      ⟨some "abc".data, none, some ⟨2024, 1, 2⟩, some "PT5M9S".data⟩
      (some ("5:09".data, 309)) (by decide) (by rfl)
      (Or.inr (Or.inl rfl))).1⟩

theorem scrape_go_append (fetch : Str → FetchResult) (s : ScrapeState)
    (l1 l2 : List Str) :
    scrape_go fetch s (l1 ++ l2) =
      match scrape_go fetch s l1 with
      | .ok s1 => scrape_go fetch s1 l2
      | .error e => .error e := by
  induction l1 generalizing s with
  | nil => rfl
  | cons u rest ih =>
    rw [List.cons_append, scrape_go, scrape_go]
    cases get_video_info u (fetch u) with
    | record r => exact ih _
    | dropped => exact ih _
    | valueError => rfl
    | exn => rfl

/-- C9 (short-form URLs pass validation yet abort the run): a `youtu.be`
URL without `youtube.com/watch` is accepted by `is_valid_youtube_url` (so
`read_urls_from_csv` keeps it), but `get_video_info` raises
`ValueError` on it — the supported-type check runs on the raw URL before
any short-link expansion — and since the scrape loop has no handler, one
such input aborts the whole collection run: whenever it appears after any
successfully processed prefix, the loop ends in the uncaught `ValueError`
and `scrape_and_write_video_info` writes no records. -/
theorem short_url_aborts (url : Str)
    (h1 : strContains url ("youtu.be".data) = true)
    (h2 : strContains url ("youtube.com/watch".data) = false) :
    is_valid_youtube_url url = true ∧
    read_urls_from_csv [[url]] = [url] ∧
    (∀ page, get_video_info url page = GVIResult.valueError) ∧
    (∀ (fetch : Str → FetchResult) (pre rest : List Str) (s0 s1 : ScrapeState),
      scrape_go fetch s0 pre = Except.ok s1 →
      scrape_go fetch s0 (pre ++ url :: rest) = Except.error ScrapeErr.valueError) ∧
    (∀ (fetch : Str → FetchResult) (rows : List (List Str)) (pre rest : List Str)
      (s1 : ScrapeState),
      read_urls_from_csv rows = pre ++ url :: rest →
      scrape_go fetch ⟨1, [], []⟩ pre = Except.ok s1 →
      scrape_and_write_video_info fetch rows = none) := by
  have hvalid : is_valid_youtube_url url = true := by
    rw [is_valid_youtube_url, h1]
    simp
  have hgvi : ∀ page, get_video_info url page = GVIResult.valueError := by
    intro page
    rw [get_video_info.eq_def, h2]
    simp
  have habort : ∀ (fetch : Str → FetchResult) (pre rest : List Str) (s0 s1 : ScrapeState),
      scrape_go fetch s0 pre = Except.ok s1 →
      scrape_go fetch s0 (pre ++ url :: rest) = Except.error ScrapeErr.valueError := by
    intro fetch pre rest s0 s1 hok
    rw [scrape_go_append, hok]
    show scrape_go fetch s1 (url :: rest) = Except.error ScrapeErr.valueError
    rw [scrape_go.eq_def]
    simp [hgvi (fetch url)]
  refine ⟨hvalid, ?_, hgvi, habort, ?_⟩
  · rw [read_urls_from_csv]
    simp [hvalid]
  · intro fetch rows pre rest s1 hrows hok
    rw [scrape_and_write_video_info, hrows, habort fetch pre rest _ s1 hok]

/-- Witness for C9 at a concrete `youtu.be` short link. -/
theorem short_url_aborts_witness :
    (strContains ("https://youtu.be/abc".data) ("youtu.be".data) = true) ∧
    (strContains ("https://youtu.be/abc".data) ("youtube.com/watch".data) = false) ∧
    (is_valid_youtube_url ("https://youtu.be/abc".data) = true ∧
      read_urls_from_csv [["https://youtu.be/abc".data]] = ["https://youtu.be/abc".data] ∧
      (∀ page, get_video_info ("https://youtu.be/abc".data) page = GVIResult.valueError) ∧
      (∀ (fetch : Str → FetchResult) (pre rest : List Str) (s0 s1 : ScrapeState),
        scrape_go fetch s0 pre = Except.ok s1 →
        scrape_go fetch s0 (pre ++ ("https://youtu.be/abc".data) :: rest) =
          Except.error ScrapeErr.valueError) ∧
      (∀ (fetch : Str → FetchResult) (rows : List (List Str)) (pre rest : List Str)
        (s1 : ScrapeState),
        read_urls_from_csv rows = pre ++ ("https://youtu.be/abc".data) :: rest →
        scrape_go fetch ⟨1, [], []⟩ pre = Except.ok s1 →
        scrape_and_write_video_info fetch rows = none)) :=
  ⟨by decide, by decide,
    short_url_aborts ("https://youtu.be/abc".data) (by decide) (by decide)⟩

theorem scrape_go_cons (fetch : Str → FetchResult) (n : Nat) (recs : List VideoRecord)
    (notices : List Nat) (u : Str) (rest : List Str) :
    scrape_go fetch ⟨n, recs, notices⟩ (u :: rest) =
      match get_video_info u (fetch u) with
      | .valueError => .error .valueError
      | .exn => .error .exn
      | .dropped => scrape_go fetch ⟨n + 1, recs, notices⟩ rest
      | .record r =>
        scrape_go fetch
          ⟨n + 1, recs ++ [⟨n, clean_url u, r⟩],
            if n % 10 == 0 then notices ++ [n] else notices⟩ rest := rfl

/-- Whether the scrape of a URL against the fetched page yields a complete
record (the `if video_info:` test of the loop). -/
def recordAt (fetch : Str → FetchResult) (u : Str) : Bool :=
  match get_video_info u (fetch u) with
  | .record _ => true
  | _ => false

theorem scrape_go_notices (fetch : Str → FetchResult) (urls : List Str) :
    ∀ (n : Nat) (recs : List VideoRecord) (notices : List Nat) (s : ScrapeState),
      scrape_go fetch ⟨n, recs, notices⟩ urls = Except.ok s →
      s.notices = notices ++
        ((List.enumFrom n urls).filter
          (fun p => p.1 % 10 == 0 && recordAt fetch p.2)).map Prod.fst := by
  induction urls with
  | nil =>
    intro n recs notices s h
    have hs : s = ⟨n, recs, notices⟩ := by
      have : Except.ok (ε := ScrapeErr) (⟨n, recs, notices⟩ : ScrapeState) = Except.ok s := h
      exact (Except.ok.inj this).symm
    rw [hs]
    simp [List.enumFrom]
  | cons u rest ih =>
    intro n recs notices s h
    rw [scrape_go_cons] at h
    cases hg : get_video_info u (fetch u) with
    | valueError =>
      simp only [hg] at h
      exact Except.noConfusion h
    | exn =>
      simp only [hg] at h
      exact Except.noConfusion h
    | dropped =>
      simp only [hg] at h
      rw [ih (n + 1) recs notices s h]
      simp [List.enumFrom, recordAt, hg]
    | record r =>
      simp only [hg] at h
      by_cases hn : (n % 10 == 0) = true
      · rw [if_pos hn] at h
        rw [ih (n + 1) _ (notices ++ [n]) s h]
        simp [List.enumFrom, recordAt, hg, hn]
      · rw [if_neg hn] at h
        rw [ih (n + 1) _ notices s h]
        rw [Bool.not_eq_true] at hn
        simp [List.enumFrom, recordAt, hg, hn]

/-- C6 amended: for every run of the scrape loop that finishes without an
exception, a progress notice is emitted exactly for the items whose
1-based position in the input URL list is a multiple of 10 and which
yield a record — the counter is the input position (`enumerate` index),
not the number of successfully processed items. -/
theorem progress_notice_amended (fetch : Str → FetchResult) (urls : List Str)
    (s : ScrapeState) (h : scrape_go fetch ⟨1, [], []⟩ urls = Except.ok s) :
    s.notices = ((List.enumFrom 1 urls).filter
      (fun p => p.1 % 10 == 0 && recordAt fetch p.2)).map Prod.fst := by
  have hmain := scrape_go_notices fetch urls 1 [] [] s h
  simpa using hmain

/-- A long-form watch URL for the given identifier tag. -/
def watchTag (tag : Str) : Str := "https://www.youtube.com/watch?v=".data ++ tag

/-- A page carrying all four metadata fields. -/
def soupFull : Soup := ⟨some "x".data, some "t".data, some ⟨2024, 1, 2⟩, some "PT5M9S".data⟩

/-- A page whose title tag is missing (the item is dropped). -/
def soupNoTitle : Soup := ⟨some "x".data, none, some ⟨2024, 1, 2⟩, some "PT5M9S".data⟩

/-- A fetcher serving the title-less page for the first URL of `urls0` and
the complete page for every other URL. -/
def fetch0 : Str → FetchResult := fun u =>
  if u = watchTag ("v01".data) then FetchResult.ok soupNoTitle else FetchResult.ok soupFull

/-- Eleven input URLs; under `fetch0` the first is dropped and the other
ten yield records. -/
def urls0 : List Str :=
  [watchTag "v01".data, watchTag "v02".data, watchTag "v03".data, watchTag "v04".data,
   watchTag "v05".data, watchTag "v06".data, watchTag "v07".data, watchTag "v08".data,
   watchTag "v09".data, watchTag "v10".data, watchTag "v11".data]

/-- Modelled from the claim's words: the notices that would be emitted if
the notice fired exactly when the number of items that have yielded a
record so far is a multiple of 10 (`n` is the input position, `cnt` the
number of records so far). -/
def claimNotices (fetch : Str → FetchResult) : Nat → Nat → List Str → List Nat
  | _, _, [] => []
  | n, cnt, u :: rest =>
    if recordAt fetch u then
      if (cnt + 1) % 10 == 0 then n :: claimNotices fetch (n + 1) (cnt + 1) rest
      else claimNotices fetch (n + 1) (cnt + 1) rest
    else claimNotices fetch (n + 1) cnt rest

/-- C6 counterexample: the claim — the notice fires when the count of
items that have yielded a record so far is a multiple of 10 — is false.
On eleven URLs whose first is dropped, the loop prints the notice at input
position 10 (the ninth success) and stays silent at position 11 (the tenth
success): the emitted notices are `[10]` while the claim demands `[11]`. -/
theorem progress_notice_cx :
    ¬ (∀ (fetch : Str → FetchResult) (urls : List Str) (s : ScrapeState),
        scrape_go fetch ⟨1, [], []⟩ urls = Except.ok s →
        s.notices = claimNotices fetch 1 0 urls) := by
  intro hclaim
  have hok : (scrape_go fetch0 ⟨1, [], []⟩ urls0).map (fun t => t.notices) =
      Except.ok [10] := by rfl
  cases hs : scrape_go fetch0 ⟨1, [], []⟩ urls0 with
  | error e =>
    rw [hs] at hok
    exact Except.noConfusion hok
  | ok s =>
    rw [hs] at hok
    have hnot : s.notices = [10] := Except.ok.inj hok
    have h2 := hclaim fetch0 urls0 s hs
    rw [hnot] at h2
    have h3 : claimNotices fetch0 1 0 urls0 = [11] := by rfl
    rw [h3] at h2
    exact absurd h2 (by decide)

/-- A fetcher serving the complete page for every URL. -/
def fetchW : Str → FetchResult := fun _ => FetchResult.ok soupFull

/-- Witness for the amended C6: a one-URL run that finishes (its only item
sits at position 1, so no notice fires). -/
theorem progress_notice_amended_witness :
    scrape_go fetchW ⟨1, [], []⟩ [watchTag "w1".data] =
      Except.ok ⟨2, [⟨1, watchTag "w1".data,
        ⟨"x".data, "t".data, "02-01-2024".data, "5:09".data, 309⟩⟩], []⟩ ∧
    (⟨2, [⟨1, watchTag "w1".data,
        ⟨"x".data, "t".data, "02-01-2024".data, "5:09".data, 309⟩⟩], []⟩ :
          ScrapeState).notices =
      ((List.enumFrom 1 [watchTag "w1".data]).filter
        (fun p => p.1 % 10 == 0 && recordAt fetchW p.2)).map Prod.fst :=
  ⟨by rfl,
    progress_notice_amended fetchW [watchTag "w1".data]
      ⟨2, [⟨1, watchTag "w1".data,
        ⟨"x".data, "t".data, "02-01-2024".data, "5:09".data, 309⟩⟩], []⟩ (by rfl)⟩

theorem strContains_cons_of (c : Char) (rest pat : Str)
    (h : strContains rest pat = true) : strContains (c :: rest) pat = true := by
  rw [strContains, h]
  simp

theorem strContains_of_prefixMatch (s pat : Str) (h : pat.isPrefixOf s = true) :
    strContains s pat = true := by
  cases s with
  | nil =>
    cases pat with
    | nil => rfl
    | cons p ps => exact absurd h (by simp [List.isPrefixOf])
  | cons c rest =>
    rw [strContains, h]
    simp

theorem strContains_append_left (a s pat : Str) (h : strContains s pat = true) :
    strContains (a ++ s) pat = true := by
  induction a with
  | nil => exact h
  | cons c arest ih => exact strContains_cons_of c _ pat ih

theorem isPrefixOf_self_append (p b : Str) : List.isPrefixOf p (p ++ b) = true := by
  induction p with
  | nil => simp [List.isPrefixOf]
  | cons c ps ih => simp [List.isPrefixOf, ih]

theorem isPrefixOf_cons_false (a b : Char) (as bs : Str) (h : (a == b) = false) :
    List.isPrefixOf (a :: as) (b :: bs) = false := by
  simp only [List.isPrefixOf, h, Bool.false_and]

/-- Every `youtu.be` short link triggers the conversion branch. -/
theorem short_trigger (b : Str) :
    strContains ("https://youtu.be/".data ++ b) ("youtu.be".data) = true := by
  have h1 : "https://youtu.be/".data ++ b =
      "https://".data ++ ("youtu.be".data ++ ('/' :: b)) := by
    rw [show "https://youtu.be/".data =
      "https://".data ++ ("youtu.be".data ++ ['/']) from by decide]
    simp
  rw [h1]
  exact strContains_append_left _ _ _
    (strContains_of_prefixMatch _ _ (isPrefixOf_self_append _ _))

theorem afterLastAux_no_match (sep : List Char) (s : Str) :
    ∀ acc, strContains s sep = false → afterLastAux sep acc s = acc.reverse ++ s := by
  induction s with
  | nil =>
    intro acc h
    simp [afterLastAux]
  | cons c rest ih =>
    intro acc h
    rw [strContains] at h
    rw [Bool.or_eq_false_iff] at h
    rw [afterLastAux.eq_def]
    simp only [h.1, Bool.false_eq_true, if_false]
    rw [ih (c :: acc) h.2]
    simp

theorem afterLastAux_cons_skip (sep : List Char) (acc : Str) (c : Char) (rest : Str)
    (h : List.isPrefixOf sep (c :: rest) = false) :
    afterLastAux sep acc (c :: rest) = afterLastAux sep (c :: acc) rest := by
  rw [afterLastAux.eq_def]
  simp only [h, Bool.false_eq_true, if_false]

theorem afterLastAux_cons_match (sep : List Char) (acc : Str) (c : Char) (rest : Str)
    (h : List.isPrefixOf sep (c :: rest) = true) :
    afterLastAux sep acc (c :: rest) = afterLastAux sep [] (rest.drop (sep.length - 1)) := by
  rw [afterLastAux.eq_def]
  simp only [h, if_true]

/-- Splitting a short link on `youtu.be/` and keeping the last part
recovers everything after the host prefix, provided the remainder holds no
further `youtu.be/`. -/
theorem afterLast_skip (b : Str) (hb : strContains b ("youtu.be/".data) = false) :
    afterLast ("youtu.be/".data) ("https://youtu.be/".data ++ b) = b := by
  have hd : "youtu.be/".data = ['y', 'o', 'u', 't', 'u', '.', 'b', 'e', '/'] := by decide
  have hd2 : "https://youtu.be/".data ++ b =
      'h' :: 't' :: 't' :: 'p' :: 's' :: ':' :: '/' :: '/' ::
        ('y' :: 'o' :: 'u' :: 't' :: 'u' :: '.' :: 'b' :: 'e' :: '/' :: b) := by
    rw [show "https://youtu.be/".data =
      ['h', 't', 't', 'p', 's', ':', '/', '/', 'y', 'o', 'u', 't', 'u', '.', 'b', 'e', '/']
      from by decide]
    simp
  rw [afterLast, hd, hd2]
  rw [afterLastAux_cons_skip _ _ _ _ (isPrefixOf_cons_false 'y' 'h' _ _ (by decide))]
  rw [afterLastAux_cons_skip _ _ _ _ (isPrefixOf_cons_false 'y' 't' _ _ (by decide))]
  rw [afterLastAux_cons_skip _ _ _ _ (isPrefixOf_cons_false 'y' 't' _ _ (by decide))]
  rw [afterLastAux_cons_skip _ _ _ _ (isPrefixOf_cons_false 'y' 'p' _ _ (by decide))]
  rw [afterLastAux_cons_skip _ _ _ _ (isPrefixOf_cons_false 'y' 's' _ _ (by decide))]
  rw [afterLastAux_cons_skip _ _ _ _ (isPrefixOf_cons_false 'y' ':' _ _ (by decide))]
  rw [afterLastAux_cons_skip _ _ _ _ (isPrefixOf_cons_false 'y' '/' _ _ (by decide))]
  rw [afterLastAux_cons_skip _ _ _ _ (isPrefixOf_cons_false 'y' '/' _ _ (by decide))]
  have hpre : List.isPrefixOf (['y', 'o', 'u', 't', 'u', '.', 'b', 'e', '/'] : List Char)
      ('y' :: 'o' :: 'u' :: 't' :: 'u' :: '.' :: 'b' :: 'e' :: '/' :: b) = true := by
    have : ('y' :: 'o' :: 'u' :: 't' :: 'u' :: '.' :: 'b' :: 'e' :: '/' :: b : List Char) =
        ['y', 'o', 'u', 't', 'u', '.', 'b', 'e', '/'] ++ b := by simp
    rw [this]
    exact isPrefixOf_self_append _ _
  rw [afterLastAux_cons_match _ _ _ _ hpre]
  rw [show ((['y', 'o', 'u', 't', 'u', '.', 'b', 'e', '/'] : List Char).length - 1) = 8
    from by decide]
  rw [show ('o' :: 'u' :: 't' :: 'u' :: '.' :: 'b' :: 'e' :: '/' :: b : List Char).drop 8 = b
    from rfl]
  rw [afterLastAux_no_match _ b [] (by rw [hd] at hb; exact hb)]
  simp

/-- C7 (convergent URL normalization): for a video identifier `v` free of
`?`, `&` and whitespace, and whose surroundings hold no stray
`youtu.be` occurrence, `clean_url` maps the bare short form
`https://youtu.be/v`, the short form with a query `https://youtu.be/v?q`,
and the long form with a tracking suffix
`https://www.youtube.com/watch?v=v&r` all to the same canonical long URL
`https://www.youtube.com/watch?v=v`, and it maps the canonical URL to
itself (idempotence). -/
theorem url_normalization_convergent (v q r : Str)
    (hq : ∀ c ∈ v, c ≠ '?')
    (ha : ∀ c ∈ v, c ≠ '&')
    (hs : ∀ c ∈ v, isPySpace c = false)
    (hvnb : strContains v ("youtu.be/".data) = false)
    (hqnb : strContains (v ++ '?' :: q) ("youtu.be/".data) = false)
    (hlong : strContains ("https://www.youtube.com/watch?v=".data ++ (v ++ '&' :: r))
      ("youtu.be".data) = false)
    (hcanon : strContains ("https://www.youtube.com/watch?v=".data ++ v)
      ("youtu.be".data) = false) :
    clean_url ("https://youtu.be/".data ++ v) =
      "https://www.youtube.com/watch?v=".data ++ v ∧
    clean_url ("https://youtu.be/".data ++ (v ++ '?' :: q)) =
      "https://www.youtube.com/watch?v=".data ++ v ∧
    clean_url ("https://www.youtube.com/watch?v=".data ++ (v ++ '&' :: r)) =
      "https://www.youtube.com/watch?v=".data ++ v ∧
    clean_url ("https://www.youtube.com/watch?v=".data ++ v) =
      "https://www.youtube.com/watch?v=".data ++ v := by
  have hnoamp : ∀ c ∈ "https://www.youtube.com/watch?v=".data ++ v, c ≠ '&' := by
    intro c hc
    rcases List.mem_append.mp hc with hc | hc
    · exact (by decide : ∀ c ∈ "https://www.youtube.com/watch?v=".data, c ≠ '&') c hc
    · exact ha c hc
  have hnosp : ∀ c ∈ "https://www.youtube.com/watch?v=".data ++ v, isPySpace c = false := by
    intro c hc
    rcases List.mem_append.mp hc with hc | hc
    · exact (by decide :
        ∀ c ∈ "https://www.youtube.com/watch?v=".data, isPySpace c = false) c hc
    · exact hs c hc
  have hcanon_clean : pyStrip (beforeFirst ['&']
      ("https://www.youtube.com/watch?v=".data ++ v)) =
      "https://www.youtube.com/watch?v=".data ++ v := by
    rw [beforeFirst_single_none '&' _ hnoamp, pyStrip_eq_self _ hnosp]
  have hshort1 : convert_short_youtube_url ("https://youtu.be/".data ++ v) =
      "https://www.youtube.com/watch?v=".data ++ v := by
    rw [convert_short_youtube_url, short_trigger v]
    simp only [if_true]
    rw [afterLast_skip v hvnb, beforeFirst_single_none '?' v hq]
  have hshort2 : convert_short_youtube_url ("https://youtu.be/".data ++ (v ++ '?' :: q)) =
      "https://www.youtube.com/watch?v=".data ++ v := by
    rw [convert_short_youtube_url, short_trigger (v ++ '?' :: q)]
    simp only [if_true]
    rw [afterLast_skip (v ++ '?' :: q) hqnb, beforeFirst_single_mid '?' v q hq]
  refine ⟨?_, ?_, ?_, ?_⟩
  · rw [clean_url, hshort1, hcanon_clean]
  · rw [clean_url, hshort2, hcanon_clean]
  · have hconv : convert_short_youtube_url
        ("https://www.youtube.com/watch?v=".data ++ (v ++ '&' :: r)) =
        "https://www.youtube.com/watch?v=".data ++ (v ++ '&' :: r) := by
      rw [convert_short_youtube_url, hlong]
      simp
    rw [clean_url, hconv, ← List.append_assoc,
      beforeFirst_single_mid '&' _ r hnoamp, pyStrip_eq_self _ hnosp]
  · have hconv : convert_short_youtube_url
        ("https://www.youtube.com/watch?v=".data ++ v) =
        "https://www.youtube.com/watch?v=".data ++ v := by
      rw [convert_short_youtube_url, hcanon]
      simp
    rw [clean_url, hconv, hcanon_clean]

/-- Witness for C7 at the identifier `abc` with query `si=x` and tracking
suffix `t=1`. -/
theorem url_normalization_convergent_witness :
    (∀ c ∈ "abc".data, c ≠ '?') ∧
    (strContains ("abc".data ++ '?' :: "si=x".data) ("youtu.be/".data) = false) ∧
    (clean_url ("https://youtu.be/".data ++ "abc".data) =
        "https://www.youtube.com/watch?v=".data ++ "abc".data ∧
      clean_url ("https://youtu.be/".data ++ ("abc".data ++ '?' :: "si=x".data)) =
        "https://www.youtube.com/watch?v=".data ++ "abc".data ∧
      clean_url ("https://www.youtube.com/watch?v=".data ++ ("abc".data ++ '&' :: "t=1".data)) =
        "https://www.youtube.com/watch?v=".data ++ "abc".data ∧
      clean_url ("https://www.youtube.com/watch?v=".data ++ "abc".data) =
        "https://www.youtube.com/watch?v=".data ++ "abc".data) :=
  ⟨by decide, by decide,
    url_normalization_convergent ("abc".data) ("si=x".data) ("t=1".data)
      (by decide) (by decide) (by decide) (by decide) (by decide) (by decide) (by decide)⟩
